import Mathlib

/-!
Shallow embedding of `src/app.js` (an Express service over Sequelize models
`Profile`, `Contract`, `Job`).  Currency amounts and timestamps are modelled
as rationals, the store as in-memory lists of rows, and each route handler as
a function from a store state (plus request data) to an HTTP status code
together with the store state it leaves behind.
-/

/-- Row of the `Profile` model: `id`, names, `profession`, a currency
`balance` (a JS number, modelled as `ℚ`) and the role discriminant
(`"client"` or `"contractor"`), which no handler in `src/app.js` reads. -/
structure Profile where
  id : Nat
  firstName : String
  lastName : String
  profession : String
  balance : ℚ
  type : String
deriving DecidableEq, Repr

/-- Row of the `Contract` model: `status` is one of `"new"`,
`"in_progress"`, `"terminated"`; `ClientId` and `ContractorId` reference
`Profile` rows. -/
structure Contract where
  id : Nat
  status : String
  ClientId : Nat
  ContractorId : Nat
deriving DecidableEq, Repr

/-- Row of the `Job` model: `paid` is nullable (`none` = unpaid, the
`where paid: null` filters in `src/app.js` match exactly `none`), and
`paymentDate` is a nullable timestamp (modelled as `ℚ`). -/
structure Job where
  id : Nat
  price : ℚ
  paid : Option Bool
  paymentDate : Option ℚ
  ContractId : Nat
deriving DecidableEq, Repr

/-- The backing store: the three model tables. -/
structure DB where
  profiles : List Profile
  contracts : List Contract
  jobs : List Job
deriving DecidableEq, Repr

/-- Models `Profile.findOne({where: {id}})`: first profile row with the given id. -/
def findProfile (db : DB) (i : Nat) : Option Profile :=
  db.profiles.find? (fun p => decide (p.id = i))

/-- Balance of the profile row with the given id, when it exists. -/
def getBalance (db : DB) (i : Nat) : Option ℚ :=
  (findProfile db i).map Profile.balance

/-- Row transformer of `Profile.update({balance}, {where: {id}})`. -/
def updProfile (i : Nat) (b : ℚ) (p : Profile) : Profile :=
  if p.id = i then { p with balance := b } else p

/-- Models `Profile.update({balance: b}, {where: {id: i}})`: sets the balance of
every profile row whose id is `i`. -/
def updateBalance (db : DB) (i : Nat) (b : ℚ) : DB :=
  { db with profiles := db.profiles.map (updProfile i b) }

/-- Row transformer of `Job.update({paid: true, paymentDate}, {where: {id}})`. -/
def updJob (i : Nat) (now : ℚ) (j : Job) : Job :=
  if j.id = i then { j with paid := some true, paymentDate := some now } else j

/-- Models `Job.update({paid: true, paymentDate: new Date()}, {where: {id: i}})`
(lines 126-137 of `src/app.js`). -/
def markJobPaid (db : DB) (i : Nat) (now : ℚ) : DB :=
  { db with jobs := db.jobs.map (updJob i now) }

/-- First job row with the given id. -/
def findJob (db : DB) (i : Nat) : Option Job :=
  db.jobs.find? (fun j => decide (j.id = i))

/-- The `Job.findOne` of `POST /jobs/:job_id/pay` (lines 75-95 of
`src/app.js`): a job with the requested id and `paid: null`, inner-joined
(`include` with a `where`) to its contract, which must have
`ClientId = req.profile.id` and `status = "in_progress"`. -/
def findJobForPay (db : DB) (jobId clientId : Nat) : Option (Job × Contract) :=
  db.jobs.findSome? (fun j =>
    if j.id = jobId ∧ j.paid = none then
      (db.contracts.find? (fun c =>
        decide (c.id = j.ContractId ∧ c.ClientId = clientId ∧ c.status = "in_progress"))).map
        (fun c => (j, c))
    else none)

/-- Modelled from the spec: the `getProfile` middleware (required from
`src/middleware/getProfile`, a repository file not among the provided
sources) resolves the caller to a `Profile` record of the store or rejects
the request before the handler runs.  Here it is the store lookup by the
caller's profile id. -/
def resolveProfile (db : DB) (callerId : Nat) : Option Profile :=
  findProfile db callerId

/-- Handler of `POST /jobs/:job_id/pay` (lines 72-145 of `src/app.js`),
with an explicit fault point.  The two `sequelize.transaction` wrappers
do not cover the three `update` calls: each `update` receives its
`{transaction}` object as a third argument, while Sequelize's
`Model.update(values, options)` takes only two, so the option is discarded
and every update autocommits as its own statement, in source order
(client debit, contractor credit, job update).  `failAt = some k` means the
store fails at the `k`-th (0-based) update: the earlier updates stay
committed, the `catch` block answers 500.  `failAt = none` is a
failure-free run.  The price check on line 97 compares `job.price` with
`req.profile.balance` (the profile resolved by the middleware), and the
contractor credit on line 117 is computed from the contractor balance
included in the initial `findOne`, both read before any write. -/
def payJobWithFault (db : DB) (callerId jobId : Nat) (now : ℚ)
    (failAt : Option Nat) : Nat × DB :=
  match resolveProfile db callerId with
  | none => (401, db)
  | some profile =>
    match findJobForPay db jobId callerId with
    | none => (404, db)
    | some (j, c) =>
      if profile.balance < j.price then (400, db)
      else if failAt = some 0 then (500, db)
      else
        let db1 := updateBalance db callerId (profile.balance - j.price)
        if failAt = some 1 then (500, db1)
        else
          match findProfile db c.ContractorId with
          | none => (500, db1)
          | some contractor =>
            let db2 := updateBalance db1 c.ContractorId (contractor.balance + j.price)
            if failAt = some 2 then (500, db2)
            else (200, markJobPaid db2 jobId now)

/-- Failure-free run of `POST /jobs/:job_id/pay`. -/
def payJob (db : DB) (callerId jobId : Nat) (now : ℚ) : Nat × DB :=
  payJobWithFault db callerId jobId now none

/-- The `Job.findAll` of `POST /balances/deposit/:userId` (lines 154-167 of
`src/app.js`): unpaid jobs inner-joined to a contract with
`ClientId = userId` and `status = "in_progress"`. -/
def clientDebtJobs (db : DB) (userId : Nat) : List Job :=
  db.jobs.filter (fun j =>
    decide (j.paid = none ∧ ∃ c ∈ db.contracts,
      c.id = j.ContractId ∧ c.ClientId = userId ∧ c.status = "in_progress"))

/-- Models `jobs.reduce((acc, job) => acc + job.price, 0)` (line 168). -/
def totalJobsDebt (db : DB) (userId : Nat) : ℚ :=
  (clientDebtJobs db userId).foldl (fun acc j => acc + j.price) 0

/-- Models `const depositLimit = totalJobsDebt * 0.25` (line 169; the JS double
literal `0.25` is exactly `1/4`). -/
def depositLimit (db : DB) (userId : Nat) : ℚ :=
  totalJobsDebt db userId * (1 / 4)

/-- Handler of `POST /balances/deposit/:userId` (lines 150-197 of
`src/app.js`).  The body field `deposit` is the amount.  After the limit
check the handler reads the target profile and writes
`balance: client.balance + deposit`; if the target row does not exist the
read yields `null`, `client.balance` throws, and the `catch` answers 500
with the store untouched. -/
def depositOp (db : DB) (userId : Nat) (amount : ℚ) : Nat × DB :=
  if depositLimit db userId < amount then (400, db)
  else
    match findProfile db userId with
    | none => (500, db)
    | some client => (200, updateBalance db userId (client.balance + amount))

/-- All committed balances are non-negative (the spec's `balance >= 0`
invariant). -/
def nonNegBalances (db : DB) : Prop := ∀ p ∈ db.profiles, 0 ≤ p.balance

/-- All job prices are non-negative (the spec requires positive prices). -/
def nonNegPrices (db : DB) : Prop := ∀ j ∈ db.jobs, 0 ≤ j.price

/-- Sum of the balances of two profile rows (0 for a missing row). -/
def balancesSum (db : DB) (i k : Nat) : ℚ :=
  ((getBalance db i).getD 0) + ((getBalance db k).getD 0)

instance : DecidablePred nonNegBalances := fun db =>
  List.decidableBAll _ db.profiles

instance : DecidablePred nonNegPrices := fun db =>
  List.decidableBAll _ db.jobs

/-- Membership test for `paymentDate: {[Op.between]: [start, end]}` (SQL
`BETWEEN` is inclusive; a `NULL` date never matches). -/
def inWindowB (s e : ℚ) : Option ℚ → Bool
  | some d => decide (s ≤ d) && decide (d ≤ e)
  | none => false

/-- The row filter shared by `GET /admin/best-profession` (lines 208-234 of
`src/app.js`) and `GET /admin/best-clients` (lines 255-282): jobs with
`paid: true` and `paymentDate` between `start` and `end` inclusive. -/
def matchJobsPaid (db : DB) (s e : ℚ) : List Job :=
  db.jobs.filter (fun j => decide (j.paid = some true) && inWindowB s e j.paymentDate)

/-- Profession of a job's contract's contractor, through the two `include`
joins of `GET /admin/best-profession`. -/
def professionOf (db : DB) (j : Job) : Option String :=
  ((db.contracts.find? (fun c => decide (c.id = j.ContractId))).bind
    (fun c => db.profiles.find? (fun p => decide (p.id = c.ContractorId)))).map
    Profile.profession

/-- The `sum(price)` of the matching jobs of one profession group. -/
def professionTotal (db : DB) (s e : ℚ) (prof : String) : ℚ :=
  (((matchJobsPaid db s e).filter (fun j => decide (professionOf db j = some prof))).map
    Job.price).sum

/-- The distinct professions appearing among the matching jobs (the
`group: ['Contract.Contractor.profession']` keys). -/
def professionsIn (db : DB) (s e : ℚ) : List String :=
  ((matchJobsPaid db s e).filterMap (professionOf db)).dedup

/-- The grouped rows of `GET /admin/best-profession`, one
`(profession, total_amount)` pair per group, before ordering. -/
def professionGroups (db : DB) (s e : ℚ) : List (String × ℚ) :=
  (professionsIn db s e).map (fun prof => (prof, professionTotal db s e prof))

/-- Permitted response bodies of `GET /admin/best-profession`: the query
orders only by `[['total_amount', 'DESC']]`, so any arrangement of the
group rows that is weakly decreasing in the total is a possible result
(the relative order of equal totals is left open by SQL). -/
def bestProfessionOut (db : DB) (s e : ℚ) (out : List (String × ℚ)) : Prop :=
  out.Perm (professionGroups db s e) ∧ out.Pairwise (fun a b => b.2 ≤ a.2)

instance (db : DB) (s e : ℚ) (out : List (String × ℚ)) :
    Decidable (bestProfessionOut db s e out) :=
  instDecidableAnd

/-- The `ClientId` group key of `GET /admin/best-clients` (the query groups by
`Contract.Client.id`, which the join equates with the contract's
`ClientId`). -/
def clientIdOf (db : DB) (j : Job) : Option Nat :=
  (db.contracts.find? (fun c => decide (c.id = j.ContractId))).map Contract.ClientId

/-- The `sum(price)` of the matching jobs of one client group. -/
def clientTotal (db : DB) (s e : ℚ) (cid : Nat) : ℚ :=
  (((matchJobsPaid db s e).filter (fun j => decide (clientIdOf db j = some cid))).map
    Job.price).sum

/-- The distinct client ids appearing among the matching jobs. -/
def clientIdsIn (db : DB) (s e : ℚ) : List Nat :=
  ((matchJobsPaid db s e).filterMap (clientIdOf db)).dedup

/-- The grouped rows of `GET /admin/best-clients`, one
`(client id, total_amount)` pair per group, before ordering and `limit`. -/
def clientGroups (db : DB) (s e : ℚ) : List (Nat × ℚ) :=
  (clientIdsIn db s e).map (fun cid => (cid, clientTotal db s e cid))

/-- Effective `limit` of `GET /admin/best-clients` (line 281 of
`src/app.js`): `limit || 2` over the raw query-string value.  An absent
parameter is `undefined` (falsy), so the default is 2; a supplied value is
a non-empty string (e.g. `"0"`), which is truthy, so it reaches the SQL
`LIMIT`, where it is evaluated numerically — in particular `limit=0` really
limits to 0 rows.  `none` models the absent parameter, `some n` a supplied
numeric value. -/
def effLimit (lp : Option Nat) : Nat := lp.getD 2

/-- Permitted row lists of the `GET /admin/best-clients` query: some
arrangement of the group rows weakly decreasing in `total_amount`,
truncated to the effective limit. -/
def bestClientsRows (db : DB) (s e : ℚ) (lp : Option Nat)
    (rows : List (Nat × ℚ)) : Prop :=
  ∃ full : List (Nat × ℚ), full.Perm (clientGroups db s e) ∧
    full.Pairwise (fun a b => b.2 ≤ a.2) ∧ rows = full.take (effLimit lp)

/-- Entry of the `GET /admin/best-clients` response body. -/
structure BCEntry where
  id : Nat
  fullName : String
  paid : ℚ
deriving DecidableEq, Repr

/-- The response mapping of `GET /admin/best-clients` (lines 284-290 of
`src/app.js`): each grouped row becomes
`{id: ClientId, fullName: firstName + " " + lastName, paid: total}`,
reading the names from the joined `Client` profile; a missing profile row
makes the property access throw (`none`). -/
def renderClients (db : DB) : List (Nat × ℚ) → Option (List BCEntry)
  | [] => some []
  | r :: rs =>
    match db.profiles.find? (fun p => decide (p.id = r.1)), renderClients db rs with
    | some p, some out => some (⟨r.1, p.firstName ++ " " ++ p.lastName, r.2⟩ :: out)
    | _, _ => none

/-- Route `GET /admin/best-profession` (lines 202-244 of `src/app.js`):
only the `getProfile` middleware guards it (caller resolution, modelled
from the spec as in `resolveProfile`); any resolved caller gets status 200
and a permitted aggregate body, independent of the caller's row. -/
def bestProfessionResp (auth : Option Profile) (db : DB) (s e : ℚ)
    (resp : Nat × List (String × ℚ)) : Prop :=
  match auth with
  | none => resp = (401, [])
  | some _ => resp.1 = 200 ∧ bestProfessionOut db s e resp.2

/-- Route `GET /admin/best-clients` (lines 249-293 of `src/app.js`):
only the `getProfile` middleware guards it; any resolved caller gets
status 200 and a rendered permitted row list, independent of the caller's
row. -/
def bestClientsResp (auth : Option Profile) (db : DB) (s e : ℚ)
    (lp : Option Nat) (resp : Nat × List BCEntry) : Prop :=
  match auth with
  | none => resp = (401, [])
  | some _ =>
    ∃ rows, bestClientsRows db s e lp rows ∧
      renderClients db rows = some resp.2 ∧ resp.1 = 200

theorem updProfile_id (i : Nat) (b : ℚ) (p : Profile) :
    (updProfile i b p).id = p.id := by
  unfold updProfile; split <;> rfl

theorem updJob_id (i : Nat) (now : ℚ) (j : Job) : (updJob i now j).id = j.id := by
  unfold updJob; split <;> rfl

theorem find?_map_of_pred {α : Type} (f : α → α) (p : α → Bool)
    (hf : ∀ a, p (f a) = p a) (l : List α) :
    (l.map f).find? p = (l.find? p).map f := by
  induction l with
  | nil => rfl
  | cons hd tl ih =>
    simp only [List.map_cons, List.find?_cons, hf]
    cases p hd <;> simp [ih]

theorem getBalance_updateBalance_ne (db : DB) (i : Nat) (b : ℚ) (x : Nat)
    (h : x ≠ i) : getBalance (updateBalance db i b) x = getBalance db x := by
  unfold getBalance findProfile updateBalance
  rw [find?_map_of_pred (updProfile i b) _ (fun a => by rw [updProfile_id])]
  cases hq : db.profiles.find? (fun p => decide (p.id = x)) with
  | none => rfl
  | some q =>
    have hid : q.id = x := by simpa using List.find?_some hq
    simp [updProfile, hid, h]

theorem getBalance_updateBalance_self (db : DB) (i : Nat) (b : ℚ)
    (h : (findProfile db i).isSome) :
    getBalance (updateBalance db i b) i = some b := by
  unfold findProfile at h
  unfold getBalance findProfile updateBalance
  rw [find?_map_of_pred (updProfile i b) _ (fun a => by rw [updProfile_id])]
  cases hq : db.profiles.find? (fun p => decide (p.id = i)) with
  | none => rw [hq] at h; simp at h
  | some q =>
    have hid : q.id = i := by simpa using List.find?_some hq
    simp [updProfile, hid]

theorem findProfile_updateBalance_isSome (db : DB) (i : Nat) (b : ℚ) (x : Nat) :
    (findProfile (updateBalance db i b) x).isSome = (findProfile db x).isSome := by
  unfold findProfile updateBalance
  rw [find?_map_of_pred (updProfile i b) _ (fun a => by rw [updProfile_id])]
  cases db.profiles.find? (fun p => decide (p.id = x)) <;> rfl

theorem getBalance_markJobPaid (db : DB) (i : Nat) (now : ℚ) (x : Nat) :
    getBalance (markJobPaid db i now) x = getBalance db x := rfl

theorem jobs_updateBalance (db : DB) (i : Nat) (b : ℚ) :
    (updateBalance db i b).jobs = db.jobs := rfl

theorem findJob_markJobPaid (db : DB) (i : Nat) (now : ℚ) (x : Nat) :
    findJob (markJobPaid db i now) x = (findJob db x).map (updJob i now) := by
  unfold findJob markJobPaid
  exact find?_map_of_pred (updJob i now) _ (fun a => by rw [updJob_id]) _

theorem findJobForPay_some {db : DB} {jid cid : Nat} {j : Job} {c : Contract}
    (h : findJobForPay db jid cid = some (j, c)) :
    j ∈ db.jobs ∧ j.id = jid ∧ j.paid = none ∧ c ∈ db.contracts ∧
      c.id = j.ContractId ∧ c.ClientId = cid ∧ c.status = "in_progress" := by
  unfold findJobForPay at h
  rw [List.findSome?_eq_some_iff] at h
  obtain ⟨l₁, a, l₂, hsplit, ha, -⟩ := h
  have hmem : a ∈ db.jobs := by rw [hsplit]; simp
  by_cases hg : a.id = jid ∧ a.paid = none
  · rw [if_pos hg] at ha
    cases hc : db.contracts.find? (fun c =>
        decide (c.id = a.ContractId ∧ c.ClientId = cid ∧ c.status = "in_progress")) with
    | none => rw [hc] at ha; simp at ha
    | some c' =>
      rw [hc] at ha
      simp only [Option.map_some'] at ha
      obtain ⟨rfl, rfl⟩ : a = j ∧ c' = c := by
        constructor <;> · injection ha with h2; cases h2; rfl
      have hcp := List.find?_some hc
      have hcm := List.mem_of_find?_eq_some hc
      simp only [decide_eq_true_eq] at hcp
      exact ⟨hmem, hg.1, hg.2, hcm, hcp.1, hcp.2.1, hcp.2.2⟩
  · rw [if_neg hg] at ha; simp at ha

theorem findJobForPay_eq_none {db : DB} {jid cid : Nat} :
    findJobForPay db jid cid = none ↔
      ¬ ∃ j ∈ db.jobs, ∃ c ∈ db.contracts, j.id = jid ∧ j.paid = none ∧
        c.id = j.ContractId ∧ c.ClientId = cid ∧ c.status = "in_progress" := by
  unfold findJobForPay
  rw [List.findSome?_eq_none_iff]
  constructor
  · rintro h ⟨j, hj, c, hc, hid, hpaid, hcid, hccl, hst⟩
    have hx := h j hj
    rw [if_pos ⟨hid, hpaid⟩] at hx
    rw [Option.map_eq_none', List.find?_eq_none] at hx
    exact absurd (by simp [hcid, hccl, hst]) (hx c hc)
  · intro h j hj
    by_cases hg : j.id = jid ∧ j.paid = none
    · rw [if_pos hg]
      cases hc : db.contracts.find? (fun c =>
          decide (c.id = j.ContractId ∧ c.ClientId = cid ∧ c.status = "in_progress")) with
      | none => rfl
      | some c =>
        exfalso
        have hcp := List.find?_some hc
        have hcm := List.mem_of_find?_eq_some hc
        simp only [decide_eq_true_eq] at hcp
        exact h ⟨j, hj, c, hcm, hg.1, hg.2, hcp.1, hcp.2.1, hcp.2.2⟩
    · rw [if_neg hg]

/-- Client row of the concrete payment scenario (balance 100). -/
def clientRow : Profile := ⟨1, "Harry", "Potter", "", 100, "client"⟩

/-- Contractor row of the concrete payment scenario (balance 0). -/
def contractorRow : Profile := ⟨2, "John", "Lennon", "musician", 0, "contractor"⟩

/-- In-progress contract between client 1 and contractor 2. -/
def contractRow : Contract := ⟨1, "in_progress", 1, 2⟩

/-- Unpaid job of price 30 on contract 1. -/
def jobRow : Job := ⟨1, 30, none, none, 1⟩

/-- Concrete store of the payment scenario of the spec: client 1 with
balance 100 pays job 1 of price 30 for contractor 2 with balance 0. -/
def dbPay : DB := ⟨[clientRow, contractorRow], [contractRow], [jobRow]⟩

/-- C1: a PayJob call on an existing unpaid job whose contract is
in progress and owned (as client) by the caller, with the caller's balance
at least the price and the contractor's profile present and distinct from
the caller, answers 200, debits the client by exactly the price, credits
the contractor by exactly the price, and marks the job paid with its
payment date set. -/
theorem C1_pay_success (db : DB) (callerId jobId : Nat) (now : ℚ)
    (p k : Profile) (j : Job) (c : Contract)
    (hp : findProfile db callerId = some p)
    (hj : findJobForPay db jobId callerId = some (j, c))
    (hk : findProfile db c.ContractorId = some k)
    (hne : callerId ≠ c.ContractorId)
    (hbal : j.price ≤ p.balance) :
    (payJob db callerId jobId now).1 = 200 ∧
    getBalance (payJob db callerId jobId now).2 callerId = some (p.balance - j.price) ∧
    getBalance (payJob db callerId jobId now).2 c.ContractorId = some (k.balance + j.price) ∧
    ∃ j2, findJob (payJob db callerId jobId now).2 jobId = some j2 ∧
      j2.paid = some true ∧ j2.paymentDate = some now := by
  obtain ⟨hjm, hjid, hjpaid, hcm, hcid, hccl, hst⟩ := findJobForPay_some hj
  have h200 : payJob db callerId jobId now =
      (200, markJobPaid (updateBalance (updateBalance db callerId (p.balance - j.price))
        c.ContractorId (k.balance + j.price)) jobId now) := by
    simp only [payJob, payJobWithFault, resolveProfile, hp, hj, hk, not_lt.mpr hbal,
      if_false]
    rfl
  refine ⟨by rw [h200], ?_, ?_, ?_⟩
  · rw [h200]
    show getBalance (markJobPaid _ jobId now) callerId = _
    rw [getBalance_markJobPaid, getBalance_updateBalance_ne _ _ _ _ hne,
      getBalance_updateBalance_self]
    rw [hp]; rfl
  · rw [h200]
    show getBalance (markJobPaid _ jobId now) c.ContractorId = _
    rw [getBalance_markJobPaid, getBalance_updateBalance_self]
    rw [findProfile_updateBalance_isSome, hk]; rfl
  · rw [h200]
    show ∃ j2, findJob (markJobPaid _ jobId now) jobId = some j2 ∧ _
    rw [findJob_markJobPaid]
    have hs : (findJob db jobId).isSome := by
      unfold findJob
      rw [List.find?_isSome]
      exact ⟨j, hjm, by simp [hjid]⟩
    obtain ⟨j0, hj0⟩ := Option.isSome_iff_exists.mp hs
    have hj0id : j0.id = jobId := by simpa using List.find?_some hj0
    have hjobs : findJob (updateBalance (updateBalance db callerId (p.balance - j.price))
        c.ContractorId (k.balance + j.price)) jobId = findJob db jobId := rfl
    rw [hjobs, hj0]
    exact ⟨updJob jobId now j0, rfl, by simp [updJob, hj0id]⟩

/-- Witness for C1: the spec's scenario on `dbPay` — after payment the
client holds 100 - 30 and the contractor 0 + 30. -/
theorem C1_pay_success_witness :
    (payJob dbPay 1 1 7).1 = 200 ∧
    getBalance (payJob dbPay 1 1 7).2 1 = some (100 - 30) ∧
    getBalance (payJob dbPay 1 1 7).2 2 = some (0 + 30) := by
  have h := C1_pay_success dbPay 1 1 7 clientRow contractorRow jobRow contractRow
    rfl rfl rfl (by decide) (by decide)
  exact ⟨h.1, h.2.1, h.2.2.1⟩

theorem payJob_status_after_find (db : DB) (callerId jobId : Nat) (now : ℚ)
    (failAt : Option Nat) (p : Profile) (j : Job) (c : Contract)
    (hp : findProfile db callerId = some p)
    (hj : findJobForPay db jobId callerId = some (j, c))
    (hb : ¬ p.balance < j.price) :
    (payJobWithFault db callerId jobId now failAt).1 = 500 ∨
      (payJobWithFault db callerId jobId now failAt).1 = 200 := by
  simp only [payJobWithFault, resolveProfile, hp, hj, hb, if_false]
  cases findProfile db c.ContractorId <;> split_ifs <;> simp

/-- C4: given a resolved caller, PayJob answers 404 exactly when no row of
the jobs table with the requested id is unpaid with an in-progress contract
whose client is the caller (job absent, already paid, contract not in
progress, or caller not the client — one collapsed outcome), and when such
a row is found it answers 400 exactly when the caller's balance is strictly
below the price, so a balance equal to the price passes both checks. -/
theorem C4_pay_errors (db : DB) (callerId jobId : Nat) (now : ℚ)
    (failAt : Option Nat) (p : Profile)
    (hp : findProfile db callerId = some p) :
    ((payJobWithFault db callerId jobId now failAt).1 = 404 ↔
      ¬ ∃ j ∈ db.jobs, ∃ c ∈ db.contracts, j.id = jobId ∧ j.paid = none ∧
        c.id = j.ContractId ∧ c.ClientId = callerId ∧ c.status = "in_progress") ∧
    ∀ j c, findJobForPay db jobId callerId = some (j, c) →
      ((payJobWithFault db callerId jobId now failAt).1 = 400 ↔ p.balance < j.price) := by
  cases hj : findJobForPay db jobId callerId with
  | none =>
    constructor
    · have h404 : payJobWithFault db callerId jobId now failAt = (404, db) := by
        simp only [payJobWithFault, resolveProfile, hp, hj]
      rw [h404]
      exact iff_of_true rfl (findJobForPay_eq_none.mp hj)
    · intro j c h
      exact Option.noConfusion h
  | some jc =>
    obtain ⟨j, c⟩ := jc
    obtain ⟨hjm, hjid, hjpaid, hcm, hcid, hccl, hst⟩ := findJobForPay_some hj
    constructor
    · apply iff_of_false
      · by_cases hb : p.balance < j.price
        · have h400 : (payJobWithFault db callerId jobId now failAt).1 = 400 := by
            simp only [payJobWithFault, resolveProfile, hp, hj, hb, if_true]
          omega
        · rcases payJob_status_after_find db callerId jobId now failAt p j c hp hj hb with
            h | h <;> omega
      · intro hno
        exact hno ⟨j, hjm, c, hcm, hjid, hjpaid, hcid, hccl, hst⟩
    · intro j' c' hj'
      have hji : j = j' ∧ c = c' := by
        simpa [Prod.ext_iff] using hj'
      obtain ⟨rfl, rfl⟩ := hji
      constructor
      · intro h400
        by_cases hb : p.balance < j.price
        · exact hb
        · rcases payJob_status_after_find db callerId jobId now failAt p j c hp hj hb with
            h | h <;> omega
      · intro hb
        simp only [payJobWithFault, resolveProfile, hp, hj, hb, if_true]

/-- Witness for C4: on `dbPay` the caller's balance 100 is at least the
price 30, so the outcome is neither 404 nor 400; for an absent job id the
outcome is 404. -/
theorem C4_pay_errors_witness :
    findProfile dbPay 1 = some clientRow ∧
    ¬ (payJobWithFault dbPay 1 1 7 none).1 = 400 ∧
    (payJobWithFault dbPay 1 99 7 none).1 = 404 := by
  refine ⟨rfl, ?_, ?_⟩
  · intro h400
    have h := (C4_pay_errors dbPay 1 1 7 none clientRow rfl).2 jobRow contractRow rfl
    have hlt := h.mp h400
    revert hlt
    decide
  · exact (C4_pay_errors dbPay 1 99 7 none clientRow rfl).1.mpr (by decide)

/-- C2: on `dbPay`, a PayJob call whose store fails at the contractor
credit (after the client debit autocommitted) answers 500 with the client
debited from 100 to 100 - 30 while the contractor still holds 0 and the
job is still unpaid: the three writes neither committed together nor were
rolled back together, because each `Profile.update`/`Job.update` call
passes its `{transaction}` object in the ignored third argument position
and therefore autocommits individually. -/
theorem C2_pay_partial_commit :
    (payJobWithFault dbPay 1 1 7 (some 1)).1 = 500 ∧
    getBalance dbPay 1 = some 100 ∧
    getBalance dbPay 2 = some 0 ∧
    getBalance (payJobWithFault dbPay 1 1 7 (some 1)).2 1 = some (100 - 30) ∧
    getBalance (payJobWithFault dbPay 1 1 7 (some 1)).2 2 = some 0 ∧
    findJob (payJobWithFault dbPay 1 1 7 (some 1)).2 1 = some jobRow := by
  exact ⟨rfl, rfl, rfl, rfl, rfl, rfl⟩

/-- Store of the second conservation scenario: client 1 holds 50,
contractor 2 holds 20, job 1 of price 10 is unpaid on their in-progress
contract. -/
def dbPay2 : DB :=
  ⟨[⟨1, "Ada", "Lovelace", "", 50, "client"⟩,
    ⟨2, "Linus", "Torvalds", "engineer", 20, "contractor"⟩],
   [⟨1, "in_progress", 1, 2⟩], [⟨1, 10, none, none, 1⟩]⟩

/-- Counterexample to C3 as stated: a PayJob call that fails (500, store
fault between the client debit and the contractor credit) does not
conserve the sum of the two parties' balances — the committed debit
destroys the price. -/
theorem C3_conservation_counterexample :
    (payJobWithFault dbPay2 1 1 9 (some 1)).1 = 500 ∧
    balancesSum (payJobWithFault dbPay2 1 1 9 (some 1)).2 1 2 ≠ balancesSum dbPay2 1 2 := by
  refine ⟨rfl, ?_⟩
  show (50 - 10 : ℚ) + 20 ≠ 50 + 20
  norm_num

/-- C3 (amended): for every PayJob call that completes without a
mid-transaction store fault — success (200) as well as the 404/400
validation failures and the 401 rejection — the sum of the paying client's
and the contractor's balances is unchanged. -/
theorem C3_conservation_amended :
    (∀ (db : DB) (callerId jobId : Nat) (now : ℚ) (j : Job) (c : Contract) (k : Profile),
      findJobForPay db jobId callerId = some (j, c) →
      findProfile db c.ContractorId = some k →
      callerId ≠ c.ContractorId →
      balancesSum (payJob db callerId jobId now).2 callerId c.ContractorId =
        balancesSum db callerId c.ContractorId) ∧
    (∀ (db : DB) (callerId jobId : Nat) (now : ℚ),
      findJobForPay db jobId callerId = none →
      (payJob db callerId jobId now).2 = db) := by
  constructor
  · intro db callerId jobId now j c k hj hk hne
    cases hp : findProfile db callerId with
    | none =>
      have : payJob db callerId jobId now = (401, db) := by
        simp only [payJob, payJobWithFault, resolveProfile, hp]
      rw [this]
    | some p =>
      by_cases hb : p.balance < j.price
      · have : payJob db callerId jobId now = (400, db) := by
          simp only [payJob, payJobWithFault, resolveProfile, hp, hj, hb, if_true]
        rw [this]
      · have h200 : payJob db callerId jobId now =
            (200, markJobPaid (updateBalance (updateBalance db callerId
              (p.balance - j.price)) c.ContractorId (k.balance + j.price)) jobId now) := by
          simp only [payJob, payJobWithFault, resolveProfile, hp, hj, hk, hb, if_false]
          rfl
        rw [h200]
        unfold balancesSum
        show (getBalance (markJobPaid _ jobId now) callerId).getD 0 +
          (getBalance (markJobPaid _ jobId now) c.ContractorId).getD 0 = _
        rw [getBalance_markJobPaid, getBalance_markJobPaid,
          getBalance_updateBalance_ne _ _ _ _ hne,
          getBalance_updateBalance_self _ _ _ (by rw [hp]; rfl),
          getBalance_updateBalance_self _ _ _
            (by rw [findProfile_updateBalance_isSome, hk]; rfl),
          getBalance, hp, getBalance, hk]
        show (p.balance - j.price) + (k.balance + j.price) = p.balance + k.balance
        ring
  · intro db callerId jobId now hj
    cases hp : findProfile db callerId with
    | none =>
      have : payJob db callerId jobId now = (401, db) := by
        simp only [payJob, payJobWithFault, resolveProfile, hp]
      rw [this]
    | some p =>
      have : payJob db callerId jobId now = (404, db) := by
        simp only [payJob, payJobWithFault, resolveProfile, hp, hj]
      rw [this]

/-- Witness for C3 (amended): the successful payment on `dbPay` keeps the
total of the two balances at 100 + 0. -/
theorem C3_conservation_witness :
    findJobForPay dbPay 1 1 = some (jobRow, contractRow) ∧
    findProfile dbPay 2 = some contractorRow ∧
    balancesSum (payJob dbPay 1 1 7).2 1 2 = balancesSum dbPay 1 2 := by
  refine ⟨rfl, rfl, ?_⟩
  exact C3_conservation_amended.1 dbPay 1 1 7 jobRow contractRow contractorRow
    rfl rfl (by decide)

/-- C5: given an existing target profile, Deposit answers 400 exactly when
the amount strictly exceeds `depositLimit` (a quarter of the unpaid
in-progress debt); an amount equal to the limit succeeds with the balance
increased by exactly that amount; and with zero outstanding debt the limit
is zero, so every strictly positive deposit is rejected. -/
theorem C5_deposit_limit (db : DB) (userId : Nat) (amount : ℚ) (client : Profile)
    (hc : findProfile db userId = some client) :
    ((depositOp db userId amount).1 = 400 ↔ depositLimit db userId < amount) ∧
    (amount = depositLimit db userId →
      (depositOp db userId amount).1 = 200 ∧
      getBalance (depositOp db userId amount).2 userId = some (client.balance + amount)) ∧
    (totalJobsDebt db userId = 0 → 0 < amount →
      depositLimit db userId = 0 ∧ (depositOp db userId amount).1 = 400) := by
  refine ⟨?_, ?_, ?_⟩
  · unfold depositOp
    split_ifs with h
    · exact iff_of_true rfl h
    · rw [hc]
      show (200 : Nat) = 400 ↔ _
      exact iff_of_false (by decide) h
  · intro heq
    have hnl : ¬ depositLimit db userId < amount := by rw [heq]; exact lt_irrefl _
    unfold depositOp
    rw [if_neg hnl, hc]
    exact ⟨rfl, getBalance_updateBalance_self db userId _ (by rw [hc]; rfl)⟩
  · intro hd hpos
    have hlim : depositLimit db userId = 0 := by rw [depositLimit, hd]; ring
    refine ⟨hlim, ?_⟩
    unfold depositOp
    rw [if_pos (by rw [hlim]; exact hpos)]

/-- Store of the deposit-limit scenario: client 1 with balance 0 owes 100
on one unpaid in-progress job, so the deposit limit is 25. -/
def dbDebt : DB :=
  ⟨[⟨1, "Mia", "Wong", "", 0, "client"⟩], [⟨1, "in_progress", 1, 2⟩],
   [⟨1, 100, none, none, 1⟩]⟩

/-- Witness for C5: on `dbDebt` a deposit of exactly the limit 25 is
accepted and credited. -/
theorem C5_deposit_limit_witness :
    findProfile dbDebt 1 = some ⟨1, "Mia", "Wong", "", 0, "client"⟩ ∧
    (25 : ℚ) = depositLimit dbDebt 1 ∧
    (depositOp dbDebt 1 25).1 = 200 ∧
    getBalance (depositOp dbDebt 1 25).2 1 = some (0 + 25) := by
  have hjobs : clientDebtJobs dbDebt 1 = [⟨1, 100, none, none, 1⟩] := rfl
  have hl : (25 : ℚ) = depositLimit dbDebt 1 := by
    rw [depositLimit, totalJobsDebt, hjobs]
    show (25 : ℚ) = (0 + 100) * (1 / 4)
    norm_num
  have h := (C5_deposit_limit dbDebt 1 25 ⟨1, "Mia", "Wong", "", 0, "client"⟩ rfl).2.1 hl
  exact ⟨rfl, hl, h.1, h.2⟩

/-- C9: Deposit has no lower bound on the amount: any amount at most the
computed limit — zero and negative amounts included — passes the check,
answers 200, and sets the target balance to `balance + amount` (hence
decreases it for a negative amount). -/
theorem C9_deposit_no_lower_bound (db : DB) (userId : Nat) (amount : ℚ)
    (client : Profile) (hc : findProfile db userId = some client)
    (hle : amount ≤ depositLimit db userId) :
    (depositOp db userId amount).1 = 200 ∧
    getBalance (depositOp db userId amount).2 userId = some (client.balance + amount) := by
  have hnl : ¬ depositLimit db userId < amount := not_lt.mpr hle
  unfold depositOp
  rw [if_neg hnl, hc]
  exact ⟨rfl, getBalance_updateBalance_self db userId _ (by rw [hc]; rfl)⟩

/-- Store of the negative-deposit scenario: client 1 with balance 10 and no
outstanding jobs, so the deposit limit is 0. -/
def dbNoDebt : DB := ⟨[⟨1, "Ann", "Smith", "", 10, "client"⟩], [], []⟩

/-- Witness for C9: on `dbNoDebt` (limit 0) the negative amount -50 passes
the check and drives the balance to 10 + -50. -/
theorem C9_deposit_no_lower_bound_witness :
    findProfile dbNoDebt 1 = some ⟨1, "Ann", "Smith", "", 10, "client"⟩ ∧
    (-50 : ℚ) ≤ depositLimit dbNoDebt 1 ∧
    (depositOp dbNoDebt 1 (-50)).1 = 200 ∧
    getBalance (depositOp dbNoDebt 1 (-50)).2 1 = some (10 + (-50)) := by
  have hle : (-50 : ℚ) ≤ depositLimit dbNoDebt 1 := by
    rw [depositLimit, totalJobsDebt]
    show (-50 : ℚ) ≤ (0 : ℚ) * (1 / 4)
    norm_num
  have h := C9_deposit_no_lower_bound dbNoDebt 1 (-50)
    ⟨1, "Ann", "Smith", "", 10, "client"⟩ rfl hle
  exact ⟨rfl, hle, h.1, h.2⟩

theorem nonNeg_updateBalance {db : DB} {i : Nat} {b : ℚ}
    (hdb : nonNegBalances db) (hb : 0 ≤ b) :
    nonNegBalances (updateBalance db i b) := by
  intro q hq
  simp only [updateBalance, List.mem_map] at hq
  obtain ⟨p0, hp0, rfl⟩ := hq
  unfold updProfile
  split
  · exact hb
  · exact hdb p0 hp0

/-- Counterexample to C6 as stated: Deposit with a negative amount is a
balance-mutating operation that drives a committed balance below zero — on
`dbNoDebt` (all balances non-negative, deposit limit 0) depositing -50
answers 200 and leaves a balance of 10 + -50 < 0. -/
theorem C6_nonneg_counterexample :
    nonNegBalances dbNoDebt ∧
    (depositOp dbNoDebt 1 (-50)).1 = 200 ∧
    ¬ nonNegBalances (depositOp dbNoDebt 1 (-50)).2 := by
  have hle : ¬ depositLimit dbNoDebt 1 < (-50 : ℚ) := by
    rw [depositLimit, totalJobsDebt]
    show ¬ (0 : ℚ) * (1 / 4) < -50
    norm_num
  have hop : depositOp dbNoDebt 1 (-50) =
      (200, updateBalance dbNoDebt 1 (10 + (-50))) := by
    unfold depositOp
    rw [if_neg hle]
    rfl
  refine ⟨by decide, by rw [hop], ?_⟩
  rw [hop]
  intro h
  have hm : (⟨1, "Ann", "Smith", "", 10 + (-50), "client"⟩ : Profile) ∈
      (updateBalance dbNoDebt 1 (10 + (-50))).profiles := by
    show _ ∈ [(⟨1, "Ann", "Smith", "", 10 + (-50), "client"⟩ : Profile)]
    exact List.mem_singleton_self _
  have := h _ hm
  norm_num at this

/-- C6 (amended): PayJob preserves non-negativity of every committed
balance (given non-negative prices) at every fault point, and Deposit
preserves it whenever the deposited amount is non-negative; only a
negative deposit can break the invariant. -/
theorem C6_nonneg_amended :
    (∀ (db : DB) (callerId jobId : Nat) (now : ℚ) (failAt : Option Nat),
      nonNegBalances db → nonNegPrices db →
      nonNegBalances (payJobWithFault db callerId jobId now failAt).2) ∧
    (∀ (db : DB) (userId : Nat) (amount : ℚ),
      0 ≤ amount → nonNegBalances db →
      nonNegBalances (depositOp db userId amount).2) := by
  constructor
  · intro db callerId jobId now failAt hdb hpr
    unfold payJobWithFault
    split
    next => exact hdb
    next p hp =>
      split
      next => exact hdb
      next j c hj =>
        have hjfacts := findJobForPay_some hj
        have hjprice : 0 ≤ j.price := hpr j hjfacts.1
        split
        next hb => exact hdb
        next hb =>
          have hd1 : nonNegBalances (updateBalance db callerId (p.balance - j.price)) :=
            nonNeg_updateBalance hdb (sub_nonneg.mpr (not_lt.mp hb))
          split
          next => exact hdb
          next h0 =>
            split
            next => exact hd1
            next h1 =>
              split
              next hk => exact hd1
              next k hk =>
                have hkmem : k ∈ db.profiles := by
                  have hk' : db.profiles.find? (fun q => decide (q.id = c.ContractorId)) =
                      some k := hk
                  exact List.mem_of_find?_eq_some hk'
                have hd2 : nonNegBalances (updateBalance
                    (updateBalance db callerId (p.balance - j.price)) c.ContractorId
                    (k.balance + j.price)) :=
                  nonNeg_updateBalance hd1 (add_nonneg (hdb k hkmem) hjprice)
                split
                next => exact hd2
                next => exact hd2
  · intro db userId amount ha hdb
    unfold depositOp
    split_ifs with h
    · exact hdb
    · cases hc : findProfile db userId with
      | none => exact hdb
      | some client =>
        have hcm : client ∈ db.profiles := by
          have hc' : db.profiles.find? (fun q => decide (q.id = userId)) = some client := hc
          exact List.mem_of_find?_eq_some hc'
        exact nonNeg_updateBalance hdb (add_nonneg (hdb client hcm) ha)

/-- Witness for C6 (amended): the faulting PayJob run on `dbPay` and a
deposit of 25 on `dbDebt` both leave every balance non-negative. -/
theorem C6_nonneg_witness :
    nonNegBalances dbPay ∧ nonNegPrices dbPay ∧
    nonNegBalances (payJobWithFault dbPay 1 1 7 (some 2)).2 ∧
    nonNegBalances (depositOp dbDebt 1 25).2 := by
  refine ⟨by decide, by decide, ?_, ?_⟩
  · exact C6_nonneg_amended.1 dbPay 1 1 7 (some 2) (by decide) (by decide)
  · exact C6_nonneg_amended.2 dbDebt 1 25 (by norm_num) (by decide)

theorem renderClients_spec (db : DB) (rows : List (Nat × ℚ)) :
    ∀ out, renderClients db rows = some out →
      out.map (fun x => (x.id, x.paid)) = rows ∧
      ∀ x ∈ out, ∃ p, db.profiles.find? (fun q => decide (q.id = x.id)) = some p ∧
        x.fullName = p.firstName ++ " " ++ p.lastName := by
  induction rows with
  | nil =>
    intro out h
    have : out = [] := by
      simpa [renderClients] using h.symm
    subst this
    simp
  | cons r rs ih =>
    intro out h
    unfold renderClients at h
    cases hp : db.profiles.find? (fun p => decide (p.id = r.1)) with
    | none => rw [hp] at h; exact Option.noConfusion h
    | some p =>
      cases hr : renderClients db rs with
      | none => rw [hp, hr] at h; exact Option.noConfusion h
      | some out' =>
        rw [hp, hr] at h
        simp only [Option.some.injEq] at h
        subst h
        obtain ⟨h1, h2⟩ := ih out' hr
        constructor
        · simp [h1]
        · intro x hx
          rcases List.mem_cons.mp hx with rfl | hx
          · exact ⟨p, hp, rfl⟩
          · exact h2 x hx

/-- C7: for every permitted BestClients response, a supplied limit of 0
yields an empty body; an unspecified limit defaults to 2 entries (fewer
only when fewer client groups exist); a limit at least the number of
distinct clients yields all groups ranked by weakly descending paid total;
and every entry's fullName joins the client's first and last name with one
space. -/
theorem C7_best_clients (db : DB) (s e : ℚ) (lp : Option Nat)
    (rows : List (Nat × ℚ)) (out : List BCEntry)
    (h1 : bestClientsRows db s e lp rows) (h2 : renderClients db rows = some out) :
    (lp = some 0 → out = []) ∧
    (lp = none → out.length = min 2 (clientIdsIn db s e).length) ∧
    ((clientIdsIn db s e).length ≤ effLimit lp →
      (out.map (fun x => (x.id, x.paid))).Perm (clientGroups db s e) ∧
      out.Pairwise (fun a b => b.paid ≤ a.paid)) ∧
    (∀ x ∈ out, ∃ p, db.profiles.find? (fun q => decide (q.id = x.id)) = some p ∧
      x.fullName = p.firstName ++ " " ++ p.lastName) := by
  obtain ⟨full, hperm, hsort, hrows⟩ := h1
  obtain ⟨hmap, hnames⟩ := renderClients_spec db rows out h2
  have hlen : out.length = rows.length := by rw [← hmap, List.length_map]
  have hfull_len : full.length = (clientIdsIn db s e).length := by
    rw [hperm.length_eq, clientGroups, List.length_map]
  refine ⟨?_, ?_, ?_, hnames⟩
  · rintro rfl
    have hr : rows = [] := by rw [hrows]; rfl
    rw [hr] at hmap
    exact List.map_eq_nil_iff.mp hmap
  · rintro rfl
    rw [hlen, hrows, List.length_take, hfull_len]
    rfl
  · intro hle
    have hr : rows = full := by
      rw [hrows]
      exact List.take_of_length_le (by omega)
    have hmf : out.map (fun x => (x.id, x.paid)) = full := by rw [hmap, hr]
    refine ⟨hmf ▸ hperm, ?_⟩
    have := hmf ▸ hsort
    exact List.pairwise_map.mp this

/-- Reporting store: client 1 "Ann Lee" paid contractor 2 (a plumber) 10
on job 1 at time 5. -/
def dbReport : DB :=
  ⟨[⟨1, "Ann", "Lee", "", 0, "client"⟩, ⟨2, "Bob", "Fix", "plumber", 0, "contractor"⟩],
   [⟨1, "in_progress", 1, 2⟩], [⟨1, 10, some true, some 5, 1⟩]⟩

/-- Witness for C7: on `dbReport` with no limit parameter, the rendered
response has min 2 1 entries. -/
theorem C7_best_clients_witness :
    bestClientsRows dbReport 0 9 none ((clientGroups dbReport 0 9).take 2) ∧
    renderClients dbReport ((clientGroups dbReport 0 9).take 2) =
      some [⟨1, "Ann" ++ " " ++ "Lee", clientTotal dbReport 0 9 1⟩] ∧
    ([⟨1, "Ann" ++ " " ++ "Lee", clientTotal dbReport 0 9 1⟩] : List BCEntry).length =
      min 2 (clientIdsIn dbReport 0 9).length := by
  have hpair : bestClientsRows dbReport 0 9 none ((clientGroups dbReport 0 9).take 2) := by
    refine ⟨clientGroups dbReport 0 9, List.Perm.refl _, ?_, rfl⟩
    show List.Pairwise _ [(1, clientTotal dbReport 0 9 1)]
    exact List.pairwise_singleton _ _
  have hrender : renderClients dbReport ((clientGroups dbReport 0 9).take 2) =
      some [⟨1, "Ann" ++ " " ++ "Lee", clientTotal dbReport 0 9 1⟩] := rfl
  exact ⟨hpair, hrender,
    (C7_best_clients dbReport 0 9 none _ _ hpair hrender).2.1 rfl⟩

theorem inWindowB_true_iff {s e : ℚ} {o : Option ℚ} :
    inWindowB s e o = true ↔ ∃ d, o = some d ∧ s ≤ d ∧ d ≤ e := by
  cases o <;> simp [inWindowB]

theorem mem_matchJobsPaid {db : DB} {s e : ℚ} {j : Job} :
    j ∈ matchJobsPaid db s e ↔
      j ∈ db.jobs ∧ j.paid = some true ∧ ∃ d, j.paymentDate = some d ∧ s ≤ d ∧ d ≤ e := by
  unfold matchJobsPaid
  rw [List.mem_filter]
  simp only [Bool.and_eq_true, decide_eq_true_eq]
  rw [inWindowB_true_iff]

theorem mem_professionGroups {db : DB} {s e : ℚ} {pr : String} {t : ℚ} :
    (pr, t) ∈ professionGroups db s e ↔
      (∃ j ∈ matchJobsPaid db s e, professionOf db j = some pr) ∧
        t = professionTotal db s e pr := by
  unfold professionGroups
  rw [List.mem_map]
  constructor
  · rintro ⟨p0, hp0, heq⟩
    obtain ⟨rfl, rfl⟩ : p0 = pr ∧ professionTotal db s e p0 = t := by
      simpa [Prod.ext_iff] using heq
    unfold professionsIn at hp0
    rw [List.mem_dedup, List.mem_filterMap] at hp0
    exact ⟨hp0, rfl⟩
  · rintro ⟨hex, rfl⟩
    refine ⟨pr, ?_, rfl⟩
    unfold professionsIn
    rw [List.mem_dedup, List.mem_filterMap]
    exact hex

/-- Tie store: two distinct professions, "alpha" and "beta", each with one
paid job of price 10 inside the window. -/
def dbTie : DB :=
  ⟨[⟨1, "Cli", "Ent", "", 0, "client"⟩,
    ⟨2, "Al", "Pha", "alpha", 0, "contractor"⟩,
    ⟨3, "Be", "Ta", "beta", 0, "contractor"⟩],
   [⟨1, "in_progress", 1, 2⟩, ⟨2, "in_progress", 1, 3⟩],
   [⟨1, 10, some true, some 5, 1⟩, ⟨2, 10, some true, some 6, 2⟩]⟩

/-- Counterexample to C8 as stated: on `dbTie` the professions "alpha" and
"beta" tie at total 10 and the query orders only by total descending, so
the arrangement listing "beta" before "alpha" is a permitted response, and
it violates the claimed deterministic tie-break by ascending profession
name. -/
theorem C8_best_profession_counterexample :
    ¬ (∀ out : List (String × ℚ), bestProfessionOut dbTie 0 9 out →
        out.Pairwise (fun a b => b.2 < a.2 ∨ (b.2 = a.2 ∧ a.1 < b.1))) := by
  intro hall
  have htot : professionTotal dbTie 0 9 "alpha" = professionTotal dbTie 0 9 "beta" := rfl
  have hperm : ([("beta", professionTotal dbTie 0 9 "beta"),
      ("alpha", professionTotal dbTie 0 9 "alpha")]).Perm (professionGroups dbTie 0 9) := by
    show List.Perm _ [("alpha", professionTotal dbTie 0 9 "alpha"),
      ("beta", professionTotal dbTie 0 9 "beta")]
    exact List.Perm.swap _ _ _
  have hsort : ([("beta", professionTotal dbTie 0 9 "beta"),
      ("alpha", professionTotal dbTie 0 9 "alpha")]).Pairwise
        (fun a b : String × ℚ => b.2 ≤ a.2) := by
    refine List.Pairwise.cons ?_ (List.pairwise_singleton _ _)
    intro b hb
    rcases List.mem_singleton.mp hb with rfl
    exact le_of_eq htot
  have hmem := hall _ ⟨hperm, hsort⟩
  rcases (List.pairwise_cons.mp hmem).1 _ (List.mem_singleton_self _) with hlt | ⟨heq, hstr⟩
  · rw [htot] at hlt
    exact absurd hlt (lt_irrefl _)
  · have hba : ¬ ("beta" : String) < "alpha" := by
      rw [String.lt_iff_toList_lt]
      decide
    exact hba hstr

/-- C8 (amended): every permitted BestProfession response consists of one
entry per profession that has a paid job with payment date inside the
inclusive window (never an unpaid or out-of-window job), carrying the sum
of the matching prices of that profession, with no duplicate professions,
ordered by weakly descending total, the relative order of equal totals
being unspecified; no matching jobs yields the empty response without
error. -/
theorem C8_best_profession_amended (db : DB) (s e : ℚ) (out : List (String × ℚ))
    (h : bestProfessionOut db s e out) :
    (∀ x ∈ out,
      (∃ j ∈ db.jobs, j.paid = some true ∧ (∃ d, j.paymentDate = some d ∧ s ≤ d ∧ d ≤ e) ∧
        professionOf db j = some x.1) ∧ x.2 = professionTotal db s e x.1) ∧
    (∀ pr : String, (∃ j ∈ matchJobsPaid db s e, professionOf db j = some pr) →
      ∃ t, (pr, t) ∈ out) ∧
    out.Pairwise (fun a b => b.2 ≤ a.2) ∧
    (out.map Prod.fst).Nodup ∧
    (matchJobsPaid db s e = [] → out = []) := by
  obtain ⟨hperm, hsort⟩ := h
  refine ⟨?_, ?_, hsort, ?_, ?_⟩
  · rintro ⟨x1, x2⟩ hx
    have hg : (x1, x2) ∈ professionGroups db s e := hperm.mem_iff.mp hx
    obtain ⟨⟨j, hj, hpj⟩, ht⟩ := mem_professionGroups.mp hg
    obtain ⟨hjm, hpd, hw⟩ := mem_matchJobsPaid.mp hj
    exact ⟨⟨j, hjm, hpd, hw, hpj⟩, ht⟩
  · intro pr hex
    have hg : (pr, professionTotal db s e pr) ∈ professionGroups db s e :=
      mem_professionGroups.mpr ⟨hex, rfl⟩
    exact ⟨_, hperm.mem_iff.mpr hg⟩
  · have h1 : (professionGroups db s e).map Prod.fst = professionsIn db s e := by
      unfold professionGroups
      rw [List.map_map]
      exact List.map_id _
    have h2 := hperm.map Prod.fst
    rw [h1] at h2
    exact h2.symm.nodup (List.nodup_dedup _)
  · intro hempty
    have hg : professionGroups db s e = [] := by
      unfold professionGroups professionsIn
      rw [hempty]
      rfl
    rw [hg] at hperm
    exact List.perm_nil.mp hperm

/-- Witness for C8 (amended): the canonical single-group response on
`dbReport` has pairwise-distinct professions. -/
theorem C8_best_profession_witness :
    bestProfessionOut dbReport 0 9 (professionGroups dbReport 0 9) ∧
    ((professionGroups dbReport 0 9).map Prod.fst).Nodup := by
  have h : bestProfessionOut dbReport 0 9 (professionGroups dbReport 0 9) := by
    refine ⟨List.Perm.refl _, ?_⟩
    show List.Pairwise _ [("plumber", professionTotal dbReport 0 9 "plumber")]
    exact List.pairwise_singleton _ _
  exact ⟨h, (C8_best_profession_amended dbReport 0 9 _ h).2.2.2.1⟩

/-- Two resolved callers of different roles that are party to nothing in
the reporting stores. -/
def profAdminA : Profile := ⟨7, "Out", "Sider", "", 0, "client"⟩

/-- Second such caller, a contractor. -/
def profAdminB : Profile := ⟨8, "Other", "Caller", "welder", 3, "contractor"⟩

/-- C10: the two admin reporting routes are guarded only by caller
resolution: any two resolved callers — whatever their role, balance or
involvement in the underlying contracts — admit exactly the same permitted
responses, and every permitted response for a resolved caller has
status 200 (no authorization failure is possible past resolution). -/
theorem C10_reporting_auth :
    (∀ (p q : Profile) (db : DB) (s e : ℚ) (resp : Nat × List (String × ℚ)),
      bestProfessionResp (some p) db s e resp ↔ bestProfessionResp (some q) db s e resp) ∧
    (∀ (p q : Profile) (db : DB) (s e : ℚ) (lp : Option Nat) (resp : Nat × List BCEntry),
      bestClientsResp (some p) db s e lp resp ↔ bestClientsResp (some q) db s e lp resp) ∧
    (∀ (p : Profile) (db : DB) (s e : ℚ) (resp : Nat × List (String × ℚ)),
      bestProfessionResp (some p) db s e resp → resp.1 = 200) ∧
    (∀ (p : Profile) (db : DB) (s e : ℚ) (lp : Option Nat) (resp : Nat × List BCEntry),
      bestClientsResp (some p) db s e lp resp → resp.1 = 200) := by
  refine ⟨fun _ _ _ _ _ _ => Iff.rfl, fun _ _ _ _ _ _ _ => Iff.rfl, ?_, ?_⟩
  · intro p db s e resp h
    exact h.1
  · intro p db s e lp resp h
    obtain ⟨rows, -, -, h200⟩ := h
    exact h200

/-- Witness for C10: on `dbReport` the same 200 response is permitted for
the uninvolved client `profAdminA` and the uninvolved contractor
`profAdminB`. -/
theorem C10_reporting_auth_witness :
    bestProfessionResp (some profAdminA) dbReport 0 9 (200, professionGroups dbReport 0 9) ∧
    bestProfessionResp (some profAdminB) dbReport 0 9 (200, professionGroups dbReport 0 9) ∧
    (200, professionGroups dbReport 0 9).1 = 200 := by
  have hA : bestProfessionResp (some profAdminA) dbReport 0 9
      (200, professionGroups dbReport 0 9) := by
    refine ⟨rfl, List.Perm.refl _, ?_⟩
    show List.Pairwise _ [("plumber", professionTotal dbReport 0 9 "plumber")]
    exact List.pairwise_singleton _ _
  exact ⟨hA, (C10_reporting_auth.1 profAdminA profAdminB dbReport 0 9 _).mp hA,
    C10_reporting_auth.2.2.1 profAdminA dbReport 0 9 _ hA⟩
